import Mathlib

/-!
Verification of the quiz session manager: shallow embedding of the
Session Store (QuizContext) and the Option Presenter (Question component)
together with proofs about the shuffle/selection mapping, navigation,
scoring, persistence and lifecycle operations.

Conventions of the embedding:
* JavaScript numbers used as array indices or ids are `Nat`; the current
  question position and the timer are `Int` (they are compared against
  `length - 1` and can be handed arbitrary values).
* `selectedAnswer : number | null` becomes `Option Nat`.
* The durable key-value store (localStorage) is a record of four optional
  slots; a stored in-progress state is either `corrupt` (unparsable JSON)
  or a `valid` decoded `PersistedState` whose `startTime` may be absent.
* Randomness for the Fisher-Yates shuffle is an explicit draw function
  `rand : Nat → Nat`; `Math.floor(Math.random() * (i + 1))` at loop index
  `i` is `rand i`, constrained by `rand i ≤ i`.
-/

/-- A question of the bank: stable id, text, ordered options and the
correct answer as an original index into `options`. -/
structure Question where
  id : Nat
  question : String
  options : List String
  correctAnswer : Nat
deriving DecidableEq, Repr

/-- One answer record per question, keyed by `questionId`; the selection
is stored as an original index (or `none` for unanswered). -/
structure UserAnswer where
  questionId : Nat
  selectedAnswer : Option Nat
  isAnswered : Bool
deriving DecidableEq, Repr

/-- The mutable session root owned by the Session Store. -/
structure QuizState where
  currentQuestion : Int
  answers : List UserAnswer
  timeRemaining : Int
  isCompleted : Bool
  startTime : Nat
deriving DecidableEq, Repr

/-- A decoded persisted session state; `startTime` may be missing. -/
structure PersistedState where
  currentQuestion : Int
  answers : List UserAnswer
  timeRemaining : Int
  isCompleted : Bool
  startTime : Option Nat
deriving DecidableEq, Repr

/-- The value found under the in-progress storage key: either JSON that
fails to parse, or a decoded state. -/
inductive StoredState where
  | corrupt : StoredState
  | valid : PersistedState → StoredState
deriving DecidableEq, Repr

/-- The identity record; opaque to the session core. -/
structure User where
  name : String
deriving DecidableEq, Repr

/-- The four durable storage slots used by the provider. -/
structure DurableStore where
  quizStateKey : Option StoredState
  startKey : Option String
  completedKey : Option String
  userKey : Option User
deriving DecidableEq, Repr

/-- The full provider state: session state, identity, started flag and
the durable store. -/
structure ProviderState where
  quizState : QuizState
  user : Option User
  isQuizStarted : Bool
  storage : DurableStore
deriving DecidableEq, Repr

/-- QUIZ_DURATION: 90 minutes in milliseconds. -/
def QUIZ_DURATION : Int := 90 * 60 * 1000

/-- getInitialQuizState: the fresh default session state. -/
def getInitialQuizState (questions : List Question) (now : Nat) : QuizState :=
  { currentQuestion := 0
    answers := questions.map fun q =>
      { questionId := q.id, selectedAnswer := none, isAnswered := false }
    timeRemaining := QUIZ_DURATION
    isCompleted := false
    startTime := now }

/-- An option paired with its original index, as shown after shuffling. -/
structure ShuffledOption where
  originalIndex : Nat
  value : String
deriving DecidableEq, Repr

/-- One swap step of the Fisher-Yates loop: exchange positions `i` and
`j` (the JavaScript destructuring assignment); out-of-range indices never
occur in the loop, there the list is returned unchanged. -/
def listSwap (l : List α) (i j : Nat) : List α :=
  match l[i]?, l[j]? with
  | some a, some b => (l.set i b).set j a
  | _, _ => l

/-- The Fisher-Yates loop of shuffleArray: at index `i` (counting down to
1) draw `j = rand i` and swap positions `i` and `j`. -/
def fyLoop (rand : Nat → Nat) : List α → Nat → List α
  | l, 0 => l
  | l, i + 1 => fyLoop rand (listSwap l (i + 1) (rand (i + 1))) i

/-- shuffleArray: copy the array and run the Fisher-Yates loop from the
last index down. -/
def shuffleArray (rand : Nat → Nat) (l : List α) : List α :=
  fyLoop rand l (l.length - 1)

/-- The pairs (originalIndex, value) built from the options in bank
order, before shuffling. -/
def optionsWithIndex (options : List String) : List ShuffledOption :=
  options.enum.map fun p => { originalIndex := p.1, value := p.2 }

/-- Putting the head element into position `k` of the tail (whose old
inhabitant `b` moves to the head) permutes the list. -/
theorem cons_set_perm (x b : α) : ∀ (xs : List α) (k : Nat),
    xs[k]? = some b → (b :: xs.set k x).Perm (x :: xs)
  | [], k, h => by simp at h
  | c :: cs, 0, h => by
      simp only [List.getElem?_cons_zero, Option.some.injEq] at h
      subst h
      simpa using List.Perm.swap x c cs
  | c :: cs, k + 1, h => by
      simp only [List.getElem?_cons_succ] at h
      have ih := cons_set_perm x b cs k h
      simp only [List.set_cons_succ]
      exact ((List.Perm.swap c b _).trans (ih.cons c)).trans (List.Perm.swap x c cs)

/-- A single swap is a permutation. -/
theorem listSwap_perm : ∀ (l : List α) (i j : Nat), (listSwap l i j).Perm l
  | [], i, j => by simp [listSwap]
  | x :: xs, 0, 0 => by simp [listSwap]
  | x :: xs, 0, k + 1 => by
      unfold listSwap
      cases hk : xs[k]? with
      | none => simp [hk]
      | some b =>
          simp only [List.getElem?_cons_zero, List.getElem?_cons_succ, hk,
            List.set_cons_zero, List.set_cons_succ]
          exact cons_set_perm x b xs k hk
  | x :: xs, i + 1, 0 => by
      unfold listSwap
      cases hi : xs[i]? with
      | none => simp [hi]
      | some a =>
          simp only [List.getElem?_cons_zero, List.getElem?_cons_succ, hi,
            List.set_cons_zero, List.set_cons_succ]
          exact cons_set_perm x a xs i hi
  | x :: xs, i + 1, j + 1 => by
      unfold listSwap
      cases hi : xs[i]? with
      | none => simp [hi]
      | some a =>
          cases hj : xs[j]? with
          | none => simp [hi, hj]
          | some b =>
              simp only [List.getElem?_cons_succ, hi, hj, List.set_cons_succ]
              have h := listSwap_perm xs i j
              rw [listSwap, hi, hj] at h
              exact h.cons x

/-- The whole Fisher-Yates loop is a permutation. -/
theorem fyLoop_perm (rand : Nat → Nat) :
    ∀ (i : Nat) (l : List α), (fyLoop rand l i).Perm l
  | 0, l => List.Perm.refl l
  | i + 1, l =>
      (fyLoop_perm rand i (listSwap l (i + 1) (rand (i + 1)))).trans
        (listSwap_perm l (i + 1) (rand (i + 1)))

/-- shuffleArray permutes its input. -/
theorem shuffleArray_perm (rand : Nat → Nat) (l : List α) :
    (shuffleArray rand l).Perm l :=
  fyLoop_perm rand (l.length - 1) l

/-- The original indices of the unshuffled pairs are exactly 0..n-1. -/
theorem optionsWithIndex_map_originalIndex (options : List String) :
    (optionsWithIndex options).map ShuffledOption.originalIndex =
      List.range options.length := by
  simp [optionsWithIndex, List.map_map, Function.comp]
  exact List.enum_map_fst options

/-- The shuffled original indices are a permutation of 0..n-1. -/
theorem shuffle_map_perm_range (options : List String) (rand : Nat → Nat) :
    ((shuffleArray rand (optionsWithIndex options)).map
        ShuffledOption.originalIndex).Perm (List.range options.length) := by
  have h := (shuffleArray_perm rand (optionsWithIndex options)).map
    ShuffledOption.originalIndex
  rwa [optionsWithIndex_map_originalIndex] at h

/-- Claim C1: for every question with n options, the display order produced
by the Fisher-Yates shuffle is a permutation of the original indices
[0, n): it has length n, the mapped original indices are a permutation of
the range, and every original index below n appears exactly once, for
every sequence of random draws with the draw at index i lying in [0, i]. -/
theorem shuffle_is_permutation (options : List String) (rand : Nat → Nat)
    (_hr : ∀ n, rand n ≤ n) :
    (shuffleArray rand (optionsWithIndex options)).length = options.length ∧
    ((shuffleArray rand (optionsWithIndex options)).map
        ShuffledOption.originalIndex).Perm (List.range options.length) ∧
    ∀ k, k < options.length →
      ((shuffleArray rand (optionsWithIndex options)).map
          ShuffledOption.originalIndex).count k = 1 := by
  refine ⟨?_, shuffle_map_perm_range options rand, ?_⟩
  · have h := (shuffleArray_perm rand (optionsWithIndex options)).length_eq
    simpa [optionsWithIndex] using h
  · intro k hk
    rw [(shuffle_map_perm_range options rand).count_eq]
    exact List.count_eq_one_of_mem (List.nodup_range _) (List.mem_range.mpr hk)

/-- Witness for C1 at a concrete three-option question and the draw
sequence that always picks index 0. -/
theorem shuffle_is_permutation_witness :
    (shuffleArray (fun _ => 0) (optionsWithIndex ["a", "b", "c"])).length =
        ["a", "b", "c"].length ∧
    ((shuffleArray (fun _ => 0) (optionsWithIndex ["a", "b", "c"])).map
        ShuffledOption.originalIndex).Perm
      (List.range ["a", "b", "c"].length) ∧
    ∀ k, k < ["a", "b", "c"].length →
      ((shuffleArray (fun _ => 0) (optionsWithIndex ["a", "b", "c"])).map
          ShuffledOption.originalIndex).count k = 1 :=
  shuffle_is_permutation ["a", "b", "c"] (fun _ => 0) (fun n => Nat.zero_le n)

/-- updateAnswer: locate the record by questionId and replace its
selection; `isAnswered` becomes `answer !== null`. -/
def updateAnswer (questionId : Nat) (answer : Option Nat) (st : QuizState) : QuizState :=
  { st with answers := st.answers.map fun a =>
      if a.questionId = questionId then
        { a with selectedAnswer := answer, isAnswered := answer.isSome }
      else a }

/-- goToQuestion: set the position iff it is inside [0, length). -/
def goToQuestion (questions : List Question) (questionIndex : Int) (st : QuizState) : QuizState :=
  if 0 ≤ questionIndex ∧ questionIndex < (questions.length : Int) then
    { st with currentQuestion := questionIndex }
  else st

/-- nextQuestion: advance by one, clamped at length - 1. -/
def nextQuestion (questions : List Question) (st : QuizState) : QuizState :=
  { st with currentQuestion := min (st.currentQuestion + 1) ((questions.length : Int) - 1) }

/-- previousQuestion: retreat by one, clamped at 0. -/
def previousQuestion (st : QuizState) : QuizState :=
  { st with currentQuestion := max (st.currentQuestion - 1) 0 }

/-- skipQuestion: advance only when not already at the last question. -/
def skipQuestion (questions : List Question) (st : QuizState) : QuizState :=
  if st.currentQuestion < (questions.length : Int) - 1 then nextQuestion questions st
  else st

/-- updateTimer: overwrite timeRemaining, but only while not completed. -/
def updateTimer (timeRemaining : Int) (st : QuizState) : QuizState :=
  if st.isCompleted then st else { st with timeRemaining := timeRemaining }

/-- calculateScore: zero before completion; afterwards count the answers
whose question is found by id and whose selection strictly equals the
question's correctAnswer. -/
def calculateScore (questions : List Question) (st : QuizState) : Nat :=
  if !st.isCompleted then 0
  else
    st.answers.foldl
      (fun correctCount userAnswer =>
        match questions.find? (fun q => q.id == userAnswer.questionId) with
        | some questionData =>
            if userAnswer.selectedAnswer == some questionData.correctAnswer then
              correctCount + 1
            else correctCount
        | none => correctCount)
      0

/-- The quizState initializer: adopt a saved state iff it parses and its
answer count matches the bank, filling a falsy (missing or zero)
startTime with the current time; otherwise fall back to the fresh
default. -/
def initQuizState (questions : List Question) (saved : Option StoredState) (now : Nat) : QuizState :=
  match saved with
  | some (StoredState.valid parsedState) =>
      if parsedState.answers.length = questions.length then
        { currentQuestion := parsedState.currentQuestion
          answers := parsedState.answers
          timeRemaining := parsedState.timeRemaining
          isCompleted := parsedState.isCompleted
          startTime :=
            match parsedState.startTime with
            | some t => if t = 0 then now else t
            | none => now }
      else getInitialQuizState questions now
  | some StoredState.corrupt => getInitialQuizState questions now
  | none => getInitialQuizState questions now

/-- JSON serialization of an in-memory state: every field is written,
so the stored startTime is always present. -/
def serialize (st : QuizState) : PersistedState :=
  { currentQuestion := st.currentQuestion
    answers := st.answers
    timeRemaining := st.timeRemaining
    isCompleted := st.isCompleted
    startTime := some st.startTime }

/-- The save effect: after every state change, write the serialized
session state to the in-progress slot, but only while the quiz is
started and not completed. -/
def saveEffect (ps : ProviderState) : ProviderState :=
  if ps.isQuizStarted && !ps.quizState.isCompleted then
    { ps with storage :=
        { ps.storage with quizStateKey := some (StoredState.valid (serialize ps.quizState)) } }
  else ps

/-- startQuiz at provider level: set the started flag and its key; when
the session is not completed, reset answers, startTime and the timer;
then the save effect runs. -/
def startQuizP (questions : List Question) (now : Nat) (ps : ProviderState) : ProviderState :=
  saveEffect
    { ps with
      isQuizStarted := true
      storage := { ps.storage with startKey := some "true" }
      quizState :=
        if ps.quizState.isCompleted then ps.quizState
        else
          { ps.quizState with
            answers := (getInitialQuizState questions now).answers
            startTime := now
            timeRemaining := QUIZ_DURATION } }

/-- updateAnswer at provider level, followed by the save effect. -/
def updateAnswerP (questionId : Nat) (answer : Option Nat) (ps : ProviderState) : ProviderState :=
  saveEffect { ps with quizState := updateAnswer questionId answer ps.quizState }

/-- updateTimer at provider level, followed by the save effect. -/
def updateTimerP (timeRemaining : Int) (ps : ProviderState) : ProviderState :=
  saveEffect { ps with quizState := updateTimer timeRemaining ps.quizState }

/-- submitQuiz at provider level: mark completed, set the completed key,
remove the in-progress key; the save effect then sees a completed state. -/
def submitQuizP (ps : ProviderState) : ProviderState :=
  saveEffect
    { ps with
      quizState := { ps.quizState with isCompleted := true }
      storage := { ps.storage with completedKey := some "true", quizStateKey := none } }

/-- resetQuiz at provider level: fresh state, started flag off, identity
dropped, all four storage keys removed; the save effect then does not
fire because the quiz is no longer started. -/
def resetQuizP (questions : List Question) (now : Nat) (_ps : ProviderState) : ProviderState :=
  saveEffect
    { quizState := getInitialQuizState questions now
      user := none
      isQuizStarted := false
      storage :=
        { quizStateKey := none, startKey := none, completedKey := none, userKey := none } }

/-- isSelected: a display entry is flagged iff the stored selection
equals its original index (an absent selection matches nothing). -/
def isSelected (selectedOriginalIndex : Option Nat) (opt : ShuffledOption) : Bool :=
  selectedOriginalIndex == some opt.originalIndex

/-- handleAnswerSelect: resolve the clicked display position to the
original index of its entry and forward it to updateAnswer. -/
def handleAnswerSelect (question : Question) (shuffledOptions : List ShuffledOption)
    (selectedShuffledIndex : Nat) (st : QuizState) : QuizState :=
  match shuffledOptions[selectedShuffledIndex]? with
  | some opt => updateAnswer question.id (some opt.originalIndex) st
  | none => st

/-- Flagged entries are exactly those whose original index is the stored
one, so their number is the multiplicity of that index. -/
theorem countP_isSelected_eq_count (o : Nat) (s : List ShuffledOption) :
    s.countP (isSelected (some o)) =
      (s.map ShuffledOption.originalIndex).count o := by
  rw [List.count, List.countP_map]
  apply List.countP_congr
  intro a _
  by_cases h : a.originalIndex = o
  · simp [isSelected, Function.comp, h]
  · have h2 : o ≠ a.originalIndex := fun hh => h hh.symm
    simp [isSelected, Function.comp, h, h2]

/-- Claim C2: selections are stored and compared only by original index.
Activating display position k records the original index of the entry at
k through updateAnswer; for a stored selection o inside the option set,
exactly one display entry carries original index o and an entry is
flagged selected iff its original index is o; a stored o outside the
option set flags nothing. -/
theorem selection_invariance (options : List String) (rand : Nat → Nat)
    (_hr : ∀ n, rand n ≤ n) (o : Nat) (q : Question) (st : QuizState) :
    (∀ k (hk : k < (shuffleArray rand (optionsWithIndex options)).length),
        handleAnswerSelect q (shuffleArray rand (optionsWithIndex options)) k st =
          updateAnswer q.id
            (some ((shuffleArray rand (optionsWithIndex options))[k].originalIndex)) st) ∧
    (o < options.length →
        (shuffleArray rand (optionsWithIndex options)).countP (isSelected (some o)) = 1) ∧
    (options.length ≤ o →
        ∀ opt ∈ shuffleArray rand (optionsWithIndex options),
          isSelected (some o) opt = false) ∧
    (∀ opt ∈ shuffleArray rand (optionsWithIndex options),
        (isSelected (some o) opt = true ↔ opt.originalIndex = o)) := by
  refine ⟨?_, ?_, ?_, ?_⟩
  · intro k hk
    unfold handleAnswerSelect
    rw [List.getElem?_eq_getElem hk]
  · intro ho
    rw [countP_isSelected_eq_count, (shuffle_map_perm_range options rand).count_eq]
    exact List.count_eq_one_of_mem (List.nodup_range _) (List.mem_range.mpr ho)
  · intro ho opt hopt
    have hmem : opt.originalIndex ∈ List.range options.length :=
      (shuffle_map_perm_range options rand).mem_iff.mp
        (List.mem_map_of_mem ShuffledOption.originalIndex hopt)
    have hlt := List.mem_range.mp hmem
    have hne : o ≠ opt.originalIndex := by omega
    simp [isSelected, hne]
  · intro opt _
    by_cases h : opt.originalIndex = o
    · simp [isSelected, h]
    · have h2 : o ≠ opt.originalIndex := fun hh => h hh.symm
      simp [isSelected, h, h2]

/-- Witness for C2: with three options, the always-zero draw sequence and
stored selection 1, exactly one display entry is flagged. -/
theorem selection_invariance_witness :
    (shuffleArray (fun _ => 0) (optionsWithIndex ["a", "b", "c"])).countP
      (isSelected (some 1)) = 1 := by
  have h := selection_invariance ["a", "b", "c"] (fun _ => 0)
    (fun n => Nat.zero_le n) 1 { id := 1, question := "q", options := ["a", "b", "c"], correctAnswer := 0 }
    { currentQuestion := 0, answers := [], timeRemaining := 0, isCompleted := false, startTime := 0 }
  exact h.2.1 (by decide)

/-- Claim C3: updateAnswer keeps the answer list's length, rewrites
exactly the records whose questionId matches (setting the selection and
isAnswered to whether the value is present), leaves non-matching records
unchanged, leaves the list unchanged whenever no record matches, and
touches no other field of the state. -/
theorem updateAnswer_spec (st : QuizState) (qid : Nat) (ans : Option Nat) :
    ((updateAnswer qid ans st).answers.length = st.answers.length) ∧
    (∀ (i : Nat) (a : UserAnswer), st.answers[i]? = some a →
        (updateAnswer qid ans st).answers[i]? =
          some (if a.questionId = qid then
                  { a with selectedAnswer := ans, isAnswered := ans.isSome }
                else a)) ∧
    ((∀ a ∈ st.answers, a.questionId ≠ qid) →
        (updateAnswer qid ans st).answers = st.answers) ∧
    ((updateAnswer qid ans st).currentQuestion = st.currentQuestion) ∧
    ((updateAnswer qid ans st).timeRemaining = st.timeRemaining) ∧
    ((updateAnswer qid ans st).isCompleted = st.isCompleted) ∧
    ((updateAnswer qid ans st).startTime = st.startTime) := by
  refine ⟨by simp [updateAnswer], ?_, ?_, rfl, rfl, rfl, rfl⟩
  · intro i a ha
    simp [updateAnswer, List.getElem?_map, ha]
  · intro hnone
    simp only [updateAnswer]
    have : ∀ a ∈ st.answers,
        (if a.questionId = qid then
          { a with selectedAnswer := ans, isAnswered := ans.isSome }
        else a) = a := by
      intro a ha
      rw [if_neg (hnone a ha)]
    calc st.answers.map _ = st.answers.map id := List.map_congr_left this
      _ = st.answers := List.map_id st.answers

/-- Witness for C3: updating question 2 in a two-record state rewrites
exactly the second record. -/
theorem updateAnswer_spec_witness :
    (updateAnswer 2 (some 1)
        { currentQuestion := 0
          answers := [{ questionId := 1, selectedAnswer := none, isAnswered := false },
                      { questionId := 2, selectedAnswer := none, isAnswered := false }]
          timeRemaining := 10, isCompleted := false, startTime := 5 }).answers[1]? =
      some { questionId := 2, selectedAnswer := some 1, isAnswered := true } := by
  have h := (updateAnswer_spec
      { currentQuestion := 0
        answers := [{ questionId := 1, selectedAnswer := none, isAnswered := false },
                    { questionId := 2, selectedAnswer := none, isAnswered := false }]
        timeRemaining := 10, isCompleted := false, startTime := 5 } 2 (some 1)).2.1
    1 { questionId := 2, selectedAnswer := none, isAnswered := false } rfl
  simpa using h

/-- Claim C4: every navigation operation preserves the position invariant
0 ≤ position < questionCount; goToQuestion sets the position exactly on
in-range targets and is a no-op otherwise (in particular at -1 and at
questionCount); nextQuestion at the last position and previousQuestion at
position 0 change nothing; skipQuestion advances by one except at the
last question, where it is a no-op. -/
theorem navigation_clamping (questions : List Question) (st : QuizState)
    (h0 : 0 ≤ st.currentQuestion)
    (h1 : st.currentQuestion < (questions.length : Int)) :
    (∀ i : Int, 0 ≤ (goToQuestion questions i st).currentQuestion ∧
        (goToQuestion questions i st).currentQuestion < (questions.length : Int)) ∧
    (0 ≤ (nextQuestion questions st).currentQuestion ∧
        (nextQuestion questions st).currentQuestion < (questions.length : Int)) ∧
    (0 ≤ (previousQuestion st).currentQuestion ∧
        (previousQuestion st).currentQuestion < (questions.length : Int)) ∧
    (0 ≤ (skipQuestion questions st).currentQuestion ∧
        (skipQuestion questions st).currentQuestion < (questions.length : Int)) ∧
    (∀ i : Int, 0 ≤ i → i < (questions.length : Int) →
        (goToQuestion questions i st).currentQuestion = i) ∧
    (∀ i : Int, (i < 0 ∨ (questions.length : Int) ≤ i) →
        goToQuestion questions i st = st) ∧
    (st.currentQuestion = (questions.length : Int) - 1 →
        nextQuestion questions st = st) ∧
    (st.currentQuestion = 0 → previousQuestion st = st) ∧
    (goToQuestion questions (-1) st = st) ∧
    (goToQuestion questions (questions.length : Int) st = st) ∧
    (st.currentQuestion < (questions.length : Int) - 1 →
        (skipQuestion questions st).currentQuestion = st.currentQuestion + 1) ∧
    (st.currentQuestion = (questions.length : Int) - 1 →
        skipQuestion questions st = st) := by
  have hlen : (1 : Int) ≤ (questions.length : Int) := by omega
  refine ⟨?_, ?_, ?_, ?_, ?_, ?_, ?_, ?_, ?_, ?_, ?_, ?_⟩
  · intro i
    by_cases hi : 0 ≤ i ∧ i < (questions.length : Int)
    · simp [goToQuestion, hi]
    · simp only [goToQuestion, if_neg hi]
      exact ⟨h0, h1⟩
  · simp only [nextQuestion]
    exact ⟨by simp; try omega, by simp; try omega⟩
  · simp only [previousQuestion]
    exact ⟨by simp; try omega, by simp; try omega⟩
  · simp only [skipQuestion]
    by_cases hc : st.currentQuestion < (questions.length : Int) - 1
    · simp only [if_pos hc, nextQuestion]
      exact ⟨by simp; try omega, by simp; try omega⟩
    · simp only [if_neg hc]
      exact ⟨h0, h1⟩
  · intro i hi0 hi1
    simp [goToQuestion, hi0, hi1]
  · intro i hi
    have : ¬(0 ≤ i ∧ i < (questions.length : Int)) := by omega
    simp [goToQuestion, this]
  · intro hlast
    have hmin : min (st.currentQuestion + 1) ((questions.length : Int) - 1) =
        st.currentQuestion := by omega
    unfold nextQuestion
    rw [hmin]
  · intro hfirst
    have hmax : max (st.currentQuestion - 1) 0 = st.currentQuestion := by omega
    unfold previousQuestion
    rw [hmax]
  · have : ¬(0 ≤ (-1 : Int) ∧ (-1 : Int) < (questions.length : Int)) := by omega
    simp [goToQuestion, this]
  · have : ¬(0 ≤ (questions.length : Int) ∧
        (questions.length : Int) < (questions.length : Int)) := by omega
    simp [goToQuestion, this]
  · intro hc
    simp only [skipQuestion, if_pos hc, nextQuestion]
    omega
  · intro hlast
    have : ¬(st.currentQuestion < (questions.length : Int) - 1) := by omega
    simp [skipQuestion, this]

/-- Witness for C4: in a two-question bank at position 0, goToQuestion 5
is a no-op. -/
theorem navigation_clamping_witness :
    goToQuestion
      [{ id := 1, question := "p", options := ["a", "b"], correctAnswer := 0 },
       { id := 2, question := "q", options := ["c", "d"], correctAnswer := 1 }] 5
      { currentQuestion := 0, answers := [], timeRemaining := 7,
        isCompleted := false, startTime := 3 } =
      { currentQuestion := 0, answers := [], timeRemaining := 7,
        isCompleted := false, startTime := 3 } := by
  have h := navigation_clamping
    [{ id := 1, question := "p", options := ["a", "b"], correctAnswer := 0 },
     { id := 2, question := "q", options := ["c", "d"], correctAnswer := 1 }]
    { currentQuestion := 0, answers := [], timeRemaining := 7,
      isCompleted := false, startTime := 3 } (by decide) (by decide)
  exact h.2.2.2.2.2.1 5 (by decide)

/-- The predicate counted by calculateScore: the question is found by id
and the stored selection strictly equals its correct answer. -/
def scorePred (questions : List Question) (userAnswer : UserAnswer) : Bool :=
  match questions.find? (fun q => q.id == userAnswer.questionId) with
  | some questionData => userAnswer.selectedAnswer == some questionData.correctAnswer
  | none => false

/-- Folding an if-increment over a list counts the predicate. -/
theorem foldl_if_count (p : α → Bool) :
    ∀ (l : List α) (n : Nat),
      l.foldl (fun acc a => if p a then acc + 1 else acc) n = n + l.countP p
  | [], n => by simp
  | a :: l, n => by
      by_cases h : p a = true
      · rw [List.foldl_cons, if_pos h, foldl_if_count p l (n + 1),
          List.countP_cons, if_pos h]
        omega
      · rw [List.foldl_cons, if_neg h, foldl_if_count p l n,
          List.countP_cons, if_neg h]
        omega

/-- calculateScore is the count of scorePred, guarded by completion. -/
theorem calculateScore_eq_countP (questions : List Question) (st : QuizState) :
    calculateScore questions st =
      if st.isCompleted then st.answers.countP (scorePred questions) else 0 := by
  unfold calculateScore
  cases hc : st.isCompleted
  · simp
  · simp only [Bool.not_true, Bool.false_eq_true, if_false, if_true]
    have hstep : (fun (correctCount : Nat) (userAnswer : UserAnswer) =>
        match questions.find? (fun q => q.id == userAnswer.questionId) with
        | some questionData =>
            if userAnswer.selectedAnswer == some questionData.correctAnswer then
              correctCount + 1
            else correctCount
        | none => correctCount) =
        fun acc a => if scorePred questions a then acc + 1 else acc := by
      funext acc a
      unfold scorePred
      cases questions.find? (fun q => q.id == a.questionId)
      · simp
      · rfl
    rw [hstep, foldl_if_count]
    exact Nat.zero_add _

/-- With unique ids, scorePred says: some bank question has this record's
id and the stored selection is its correct answer. -/
theorem scorePred_iff (questions : List Question)
    (huniq : (questions.map Question.id).Nodup) (a : UserAnswer) :
    scorePred questions a =
      decide (∃ q ∈ questions,
        q.id = a.questionId ∧ a.selectedAnswer = some q.correctAnswer) := by
  unfold scorePred
  cases hfind : questions.find? (fun q => q.id == a.questionId) with
  | none =>
      have hno : ∀ q ∈ questions, ¬(q.id = a.questionId) := by
        intro q hq
        have := List.find?_eq_none.mp hfind q hq
        simpa using this
      have : ¬(∃ q ∈ questions,
          q.id = a.questionId ∧ a.selectedAnswer = some q.correctAnswer) := by
        rintro ⟨q, hq, hid, _⟩
        exact hno q hq hid
      simp [this]
  | some q =>
      have hq_mem : q ∈ questions := List.mem_of_find?_eq_some hfind
      have hq_id : q.id = a.questionId := by
        have := List.find?_some hfind
        simpa using this
      by_cases hsel : a.selectedAnswer = some q.correctAnswer
      · have hb : (a.selectedAnswer == some q.correctAnswer) = true :=
          beq_iff_eq.mpr hsel
        show (a.selectedAnswer == some q.correctAnswer) =
          decide (∃ q' ∈ questions,
            q'.id = a.questionId ∧ a.selectedAnswer = some q'.correctAnswer)
        rw [hb]
        symm
        rw [decide_eq_true_eq]
        exact ⟨q, hq_mem, hq_id, hsel⟩
      · have hnoex : ¬(∃ q' ∈ questions,
            q'.id = a.questionId ∧ a.selectedAnswer = some q'.correctAnswer) := by
          rintro ⟨q', hq', hid', hsel'⟩
          have heq : q' = q :=
            List.inj_on_of_nodup_map huniq hq' hq_mem (hid'.trans hq_id.symm)
          subst heq
          exact hsel hsel'
        have hb : (a.selectedAnswer == some q.correctAnswer) = false :=
          beq_eq_false_iff_ne.mpr hsel
        show (a.selectedAnswer == some q.correctAnswer) =
          decide (∃ q' ∈ questions,
            q'.id = a.questionId ∧ a.selectedAnswer = some q'.correctAnswer)
        rw [hb]
        symm
        rw [decide_eq_false_iff_not]
        exact hnoex

/-- Claim C5: calculateScore returns 0 whenever the session is not
completed; once completed it returns exactly the number of answer records
for which a bank question with matching id exists whose correctAnswer
strictly equals the stored selection; records matching no question
contribute nothing. Ids are unique across the bank. -/
theorem calculateScore_spec (questions : List Question) (st : QuizState)
    (huniq : (questions.map Question.id).Nodup) :
    calculateScore questions st =
      if st.isCompleted then
        st.answers.countP (fun a =>
          decide (∃ q ∈ questions,
            q.id = a.questionId ∧ a.selectedAnswer = some q.correctAnswer))
      else 0 := by
  rw [calculateScore_eq_countP]
  by_cases hc : st.isCompleted
  · simp only [hc, if_true]
    apply List.countP_congr
    intro a _
    rw [scorePred_iff questions huniq a]
  · simp [hc]

/-- Witness for C5: a completed two-question session where exactly the
first answer is correct. -/
theorem calculateScore_spec_witness :
    calculateScore
        [{ id := 1, question := "p", options := ["a", "b"], correctAnswer := 0 },
         { id := 2, question := "q", options := ["c", "d"], correctAnswer := 1 }]
        { currentQuestion := 0
          answers := [{ questionId := 1, selectedAnswer := some 0, isAnswered := true },
                      { questionId := 2, selectedAnswer := some 0, isAnswered := true }]
          timeRemaining := 0, isCompleted := true, startTime := 1 } = 1 :=
  (calculateScore_spec
    [{ id := 1, question := "p", options := ["a", "b"], correctAnswer := 0 },
     { id := 2, question := "q", options := ["c", "d"], correctAnswer := 1 }]
    { currentQuestion := 0
      answers := [{ questionId := 1, selectedAnswer := some 0, isAnswered := true },
                  { questionId := 2, selectedAnswer := some 0, isAnswered := true }]
      timeRemaining := 0, isCompleted := true, startTime := 1 }
    (by decide)).trans (by decide)

/-- Claim C6: once isCompleted is true, updateTimer is a silent no-op so
timeRemaining stays frozen; updateAnswer is never disallowed by
completion (the in-memory answers still change) but its edits are no
longer persisted; and in general the in-progress slot is written only
while the session is started and not completed. -/
theorem completion_freezes (t : Int) (qid : Nat) (ans : Option Nat) (ps : ProviderState)
    (hc : ps.quizState.isCompleted = true) :
    updateTimerP t ps = ps ∧
    (updateAnswerP qid ans ps).quizState = updateAnswer qid ans ps.quizState ∧
    (updateAnswerP qid ans ps).storage = ps.storage ∧
    (updateAnswerP qid ans ps).user = ps.user ∧
    (updateAnswerP qid ans ps).isQuizStarted = ps.isQuizStarted ∧
    ∀ ps2 : ProviderState,
      (ps2.isQuizStarted = true ∧ ps2.quizState.isCompleted = false) ∨
        saveEffect ps2 = ps2 := by
  have hcomp : (updateAnswer qid ans ps.quizState).isCompleted = true := hc
  have ht : updateTimer t ps.quizState = ps.quizState := by
    simp [updateTimer, hc]
  refine ⟨?_, ?_, ?_, ?_, ?_, ?_⟩
  · simp [updateTimerP, ht, saveEffect, hc]
  · simp [updateAnswerP, saveEffect, hcomp]
  · simp [updateAnswerP, saveEffect, hcomp]
  · simp [updateAnswerP, saveEffect, hcomp]
  · simp [updateAnswerP, saveEffect, hcomp]
  · intro ps2
    by_cases h : ps2.isQuizStarted = true ∧ ps2.quizState.isCompleted = false
    · exact Or.inl h
    · right
      have hcond : (ps2.isQuizStarted && !ps2.quizState.isCompleted) = false := by
        cases hb : ps2.isQuizStarted <;> cases hb2 : ps2.quizState.isCompleted <;>
          simp_all
      simp [saveEffect, hcond]

/-- Witness for C6: a completed provider state is untouched by a timer
update. -/
theorem completion_freezes_witness :
    updateTimerP 5
        { quizState := { currentQuestion := 0, answers := [], timeRemaining := 0,
                         isCompleted := true, startTime := 1 }
          user := none
          isQuizStarted := true
          storage := { quizStateKey := none, startKey := none,
                       completedKey := none, userKey := none } } =
      { quizState := { currentQuestion := 0, answers := [], timeRemaining := 0,
                       isCompleted := true, startTime := 1 }
        user := none
        isQuizStarted := true
        storage := { quizStateKey := none, startKey := none,
                     completedKey := none, userKey := none } } :=
  (completion_freezes 5 1 none
    { quizState := { currentQuestion := 0, answers := [], timeRemaining := 0,
                     isCompleted := true, startTime := 1 }
      user := none
      isQuizStarted := true
      storage := { quizStateKey := none, startKey := none,
                   completedKey := none, userKey := none } } rfl).1

/-- Claim C7: resetQuiz yields, from any provider state, position 0, one
unanswered record per question in bank order, the full duration, not
completed, not started, no identity, and all four storage keys removed. -/
theorem resetQuiz_spec (questions : List Question) (now : Nat) (ps : ProviderState) :
    (resetQuizP questions now ps).quizState.currentQuestion = 0 ∧
    (resetQuizP questions now ps).quizState.answers =
      questions.map (fun q =>
        { questionId := q.id, selectedAnswer := none, isAnswered := false }) ∧
    (resetQuizP questions now ps).quizState.timeRemaining = QUIZ_DURATION ∧
    (resetQuizP questions now ps).quizState.isCompleted = false ∧
    (resetQuizP questions now ps).quizState.startTime = now ∧
    (resetQuizP questions now ps).isQuizStarted = false ∧
    (resetQuizP questions now ps).user = none ∧
    (resetQuizP questions now ps).storage.quizStateKey = none ∧
    (resetQuizP questions now ps).storage.startKey = none ∧
    (resetQuizP questions now ps).storage.completedKey = none ∧
    (resetQuizP questions now ps).storage.userKey = none := by
  simp [resetQuizP, saveEffect, getInitialQuizState]

/-- Claim C8: initialization adopts a persisted state iff it parses and
its answer count equals the bank's length, filling a missing startTime
with the current time; a missing key, unparsable JSON or a count mismatch
all fall back to the fresh default state, and no failure propagates. -/
theorem initialization_spec (questions : List Question) (now : Nat) :
    (initQuizState questions none now = getInitialQuizState questions now) ∧
    (initQuizState questions (some StoredState.corrupt) now =
        getInitialQuizState questions now) ∧
    (∀ ps : PersistedState, ps.answers.length ≠ questions.length →
        initQuizState questions (some (StoredState.valid ps)) now =
          getInitialQuizState questions now) ∧
    (∀ ps : PersistedState, ps.answers.length = questions.length →
        ((initQuizState questions (some (StoredState.valid ps)) now).currentQuestion =
            ps.currentQuestion ∧
         (initQuizState questions (some (StoredState.valid ps)) now).answers =
            ps.answers ∧
         (initQuizState questions (some (StoredState.valid ps)) now).timeRemaining =
            ps.timeRemaining ∧
         (initQuizState questions (some (StoredState.valid ps)) now).isCompleted =
            ps.isCompleted ∧
         (ps.startTime = none →
            (initQuizState questions (some (StoredState.valid ps)) now).startTime = now) ∧
         (∀ t : Nat, ps.startTime = some t → t ≠ 0 →
            (initQuizState questions (some (StoredState.valid ps)) now).startTime = t))) ∧
    (getInitialQuizState questions now =
      { currentQuestion := 0
        answers := questions.map fun q =>
          { questionId := q.id, selectedAnswer := none, isAnswered := false }
        timeRemaining := QUIZ_DURATION
        isCompleted := false
        startTime := now }) := by
  refine ⟨rfl, rfl, ?_, ?_, rfl⟩
  · intro ps h
    simp [initQuizState, h]
  · intro ps h
    refine ⟨?_, ?_, ?_, ?_, ?_, ?_⟩
    · simp [initQuizState, h]
    · simp [initQuizState, h]
    · simp [initQuizState, h]
    · simp [initQuizState, h]
    · intro hst
      simp [initQuizState, h, hst]
    · intro t hst ht0
      simp [initQuizState, h, hst, ht0]

/-- Witness for C8: a persisted state whose record count does not match
the two-question bank is discarded for the fresh default. -/
theorem initialization_spec_witness :
    initQuizState
        [{ id := 1, question := "p", options := ["a", "b"], correctAnswer := 0 },
         { id := 2, question := "q", options := ["c", "d"], correctAnswer := 1 }]
        (some (StoredState.valid
          { currentQuestion := 0, answers := [], timeRemaining := 3,
            isCompleted := false, startTime := some 4 })) 7 =
      getInitialQuizState
        [{ id := 1, question := "p", options := ["a", "b"], correctAnswer := 0 },
         { id := 2, question := "q", options := ["c", "d"], correctAnswer := 1 }] 7 := by
  have h := initialization_spec
    [{ id := 1, question := "p", options := ["a", "b"], correctAnswer := 0 },
     { id := 2, question := "q", options := ["c", "d"], correctAnswer := 1 }] 7
  exact h.2.2.1
    { currentQuestion := 0, answers := [], timeRemaining := 3,
      isCompleted := false, startTime := some 4 } (by decide)

/-- Claim C9: serializing any session state and rehydrating it through
initialization with a bank of matching question count yields the same
state, except that a falsy (zero) startTime is replaced by the current
time; a serialized state always carries its startTime, so the missing
case cannot arise on this path. -/
theorem persistence_roundtrip (questions : List Question) (st : QuizState) (now : Nat)
    (hlen : st.answers.length = questions.length) :
    initQuizState questions (some (StoredState.valid (serialize st))) now =
      (if st.startTime = 0 then { st with startTime := now } else st) := by
  simp only [initQuizState, serialize]
  rw [if_pos hlen]
  by_cases h0 : st.startTime = 0
  · simp [h0]
  · simp [h0]

/-- Witness for C9: a one-question state with nonzero startTime
round-trips unchanged. -/
theorem persistence_roundtrip_witness :
    initQuizState
        [{ id := 1, question := "p", options := ["a", "b"], correctAnswer := 0 }]
        (some (StoredState.valid (serialize
          { currentQuestion := 0
            answers := [{ questionId := 1, selectedAnswer := some 1, isAnswered := true }]
            timeRemaining := 2, isCompleted := false, startTime := 6 }))) 9 =
      (if ({ currentQuestion := 0
             answers := [{ questionId := 1, selectedAnswer := some 1, isAnswered := true }]
             timeRemaining := 2, isCompleted := false, startTime := 6 } : QuizState).startTime = 0 then
        { currentQuestion := 0
          answers := [{ questionId := 1, selectedAnswer := some 1, isAnswered := true }]
          timeRemaining := 2, isCompleted := false, startTime := 9 }
      else
        { currentQuestion := 0
          answers := [{ questionId := 1, selectedAnswer := some 1, isAnswered := true }]
          timeRemaining := 2, isCompleted := false, startTime := 6 }) :=
  persistence_roundtrip
    [{ id := 1, question := "p", options := ["a", "b"], correctAnswer := 0 }]
    { currentQuestion := 0
      answers := [{ questionId := 1, selectedAnswer := some 1, isAnswered := true }]
      timeRemaining := 2, isCompleted := false, startTime := 6 } 9 rfl

/-- Claim C10: startQuiz never moves the current question position; on a
session that is not completed it resets the answers to fresh unanswered
records, the timer to the full duration and startTime to now; on a
completed session it changes nothing in the session state, only the
started flag and its persisted key. -/
theorem startQuiz_frame (questions : List Question) (now : Nat) (ps : ProviderState) :
    ((startQuizP questions now ps).quizState.currentQuestion =
        ps.quizState.currentQuestion) ∧
    (ps.quizState.isCompleted = false →
        ((startQuizP questions now ps).quizState.answers =
            questions.map (fun q =>
              { questionId := q.id, selectedAnswer := none, isAnswered := false }) ∧
         (startQuizP questions now ps).quizState.timeRemaining = QUIZ_DURATION ∧
         (startQuizP questions now ps).quizState.startTime = now ∧
         (startQuizP questions now ps).quizState.isCompleted = false)) ∧
    (ps.quizState.isCompleted = true →
        ((startQuizP questions now ps).quizState = ps.quizState ∧
         (startQuizP questions now ps).storage.quizStateKey =
            ps.storage.quizStateKey ∧
         (startQuizP questions now ps).storage.completedKey =
            ps.storage.completedKey ∧
         (startQuizP questions now ps).storage.userKey = ps.storage.userKey ∧
         (startQuizP questions now ps).user = ps.user)) ∧
    ((startQuizP questions now ps).isQuizStarted = true) ∧
    ((startQuizP questions now ps).storage.startKey = some "true") := by
  cases hc : ps.quizState.isCompleted
  · refine ⟨?_, ?_, ?_, ?_, ?_⟩
    · simp [startQuizP, saveEffect, hc]
    · intro _
      refine ⟨?_, ?_, ?_, ?_⟩ <;> simp [startQuizP, saveEffect, hc, getInitialQuizState]
    · intro habs
      simp at habs
    · simp [startQuizP, saveEffect, hc]
    · simp [startQuizP, saveEffect, hc]
  · refine ⟨?_, ?_, ?_, ?_, ?_⟩
    · simp [startQuizP, saveEffect, hc]
    · intro habs
      simp at habs
    · intro _
      refine ⟨?_, ?_, ?_, ?_, ?_⟩ <;> simp [startQuizP, saveEffect, hc]
    · simp [startQuizP, saveEffect, hc]
    · simp [startQuizP, saveEffect, hc]

/-- Witness for C10: starting on a completed session leaves the session
state untouched. -/
theorem startQuiz_frame_witness :
    (startQuizP
        [{ id := 1, question := "p", options := ["a", "b"], correctAnswer := 0 }] 5
        { quizState := { currentQuestion := 0, answers := [], timeRemaining := 0,
                         isCompleted := true, startTime := 1 }
          user := none
          isQuizStarted := false
          storage := { quizStateKey := none, startKey := none,
                       completedKey := none, userKey := none } }).quizState =
      { currentQuestion := 0, answers := [], timeRemaining := 0,
        isCompleted := true, startTime := 1 } :=
  ((startQuiz_frame
    [{ id := 1, question := "p", options := ["a", "b"], correctAnswer := 0 }] 5
    { quizState := { currentQuestion := 0, answers := [], timeRemaining := 0,
                     isCompleted := true, startTime := 1 }
      user := none
      isQuizStarted := false
      storage := { quizStateKey := none, startKey := none,
                   completedKey := none, userKey := none } }).2.2.1 rfl).1
